import Mathlib

/-!
Shallow embedding of the pin-cushion downloader (src/download.rs) and the
per-board update cycle (src/cushion.rs), together with theorems settling the
spec claims about them.  Network and filesystem effects are modelled by
explicit oracles (`NetResponse`-valued functions and write-success predicates),
and the persistence call in `Cushion::update` is recorded as a boolean flag.
-/

namespace PinCushion

/-- The error enum of src/main.rs, restricted to the variants the embedded
    functions can produce.  `transport` stands for `RemoteError` raised by
    `resp.bytes().await?`, `ioFail` for `IoError` raised by the file write. -/
inductive Err where
  | missingDescription
  | transport
  | ioFail
deriving DecidableEq

/-- An `rss::Item` as used by cushion.rs: `guid` models
    `item.guid().map(rss::Guid::value)` and `description` models
    `item.description()`. -/
structure Item where
  guid : Option String
  description : Option String
deriving DecidableEq

/-! ## src/download.rs -/

/-- Outcome of `client.get(url).send().await` followed by status / body
    inspection: `sendErr` is an `Err` from `send()`; otherwise `success`
    is `resp.status().is_success()` and `body` is `some bytes` when
    `resp.bytes().await` succeeds and `none` when it fails. -/
inductive NetResponse where
  | sendErr
  | response (success : Bool) (body : Option (List Nat))
deriving DecidableEq

/-- `file_extensions::EXTENSIONS`, in declaration order. -/
def EXTENSIONS : List String := ["jpg", "jpeg", "png", "webm", "tiff", "gif", "jfif", "jiff"]

/-- `url_base_with_extension`: `format!("{}{}", base, ext)`. -/
def url_base_with_extension (base ext : String) : String := base ++ ext

/-! ### The regex of `url_base_from_description`

The pattern is `(?m)img src="(https://i.pinimg.com)/\S*?/(\S*\.).*"`.
We embed the leftmost-first (backtracking-preference) match semantics of the
`regex` crate for exactly this pattern.  Note the unescaped dots inside
`i.pinimg.com`: in the pattern they match any character except a newline, so
group 1 is the text actually matched, not necessarily the literal host. -/

/-- The characters matched by the regex class `\s` (ASCII range; the inputs
    considered here are ASCII). -/
def isWS (c : Char) : Bool :=
  c = ' ' || c = '\t' || c = '\n' || c = '\x0b' || c = '\x0c' || c = '\r'

/-- A single-character pattern token: a literal, or `.` (any char but `\n`). -/
inductive PatTok where
  | lit (c : Char)
  | anyNN
deriving DecidableEq

/-- Match a deterministic run of single-character tokens, returning the text
    consumed and the rest of the input. -/
def matchToks : List PatTok → List Char → Option (List Char × List Char)
  | [], s => some ([], s)
  | _ :: _, [] => none
  | t :: ts, c :: s =>
    let okc : Bool := match t with
      | .lit l => c = l
      | .anyNN => c ≠ '\n'
    if okc then (matchToks ts s).map (fun p => (c :: p.1, p.2)) else none

/-- The literal `img src="` prefix of the pattern. -/
def prefixToks : List PatTok := "img src=\"".toList.map PatTok.lit

/-- Group 1 of the pattern, `https://i.pinimg.com`, with the two unescaped
    dots compiled as any-char-but-newline tokens. -/
def group1Toks : List PatTok :=
  "https://i.pinimg.com".toList.map (fun c => if c = '.' then PatTok.anyNN else PatTok.lit c)

/-- `.*"` : some later `"` on the same line (a `"` reachable without crossing
    a newline).  Greedy choice is irrelevant: nothing follows and no capture
    group is involved. -/
def stageC : List Char → Bool
  | [] => false
  | c :: rest => if c = '"' then true else if c = '\n' then false else stageC rest

/-- `(\S*\.)` followed by `stageC`, greedy in `\S*`, returning the text of
    capture group 2 (the `\S*` run plus the final dot).  Extending `\S*` is
    preferred; ending it at a literal `.` is the backtracking fallback. -/
def stageB : List Char → Option (List Char)
  | [] => none
  | c :: rest =>
    if isWS c then none
    else
      match stageB rest with
      | some cap => some (c :: cap)
      | none => if c = '.' then (if stageC rest then some ['.'] else none) else none

/-- `\S*?/` followed by `stageB`, lazy in `\S*?`: the earliest `/` whose
    continuation succeeds wins; on failure the `/` itself (non-space) is
    consumed by `\S*?` and the scan continues. -/
def stageA : List Char → Option (List Char)
  | [] => none
  | c :: rest =>
    if c = '/' then
      match stageB rest with
      | some cap => some cap
      | none => stageA rest
    else if isWS c then none
    else stageA rest

/-- Try the whole pattern anchored at the head of `s`, returning the texts of
    capture groups 1 and 2. -/
def matchAt (s : List Char) : Option (String × String) :=
  match matchToks prefixToks s with
  | none => none
  | some (_, r1) =>
    match matchToks group1Toks r1 with
    | none => none
    | some (g1, r2) =>
      match r2 with
      | [] => none
      | c :: r3 =>
        if c = '/' then
          match stageA r3 with
          | some g2 => some (⟨g1⟩, ⟨g2⟩)
          | none => none
        else none

/-- Leftmost search: try the pattern at every position, earliest first. -/
def findCaps : List Char → Option (String × String)
  | [] => none
  | c :: rest =>
    match matchAt (c :: rest) with
    | some r => some r
    | none => findCaps rest

/-- `url_base_from_description`: on a match, the result is
    `format!("{}/originals/{}", &caps[1], &caps[2])`; `None` when the regex
    does not match. -/
def url_base_from_description (descr : String) : Option String :=
  (findCaps descr.toList).map (fun g => g.1 ++ "/originals/" ++ g.2)

/-- `url.rsplit('/').next()`: the final path segment (the whole string when
    it contains no `/`). -/
def fileName (url : String) : String :=
  ⟨(url.toList.reverse.takeWhile (fun c => c ≠ '/')).reverse⟩

instance instDecEqExcept {ε α : Type} [DecidableEq ε] [DecidableEq α] :
    DecidableEq (Except ε α)
  | .error a, .error b =>
    if h : a = b then .isTrue (by rw [h]) else .isFalse (by simp [h])
  | .error _, .ok _ => .isFalse (by simp)
  | .ok _, .error _ => .isFalse (by simp)
  | .ok a, .ok b =>
    if h : a = b then .isTrue (by rw [h]) else .isFalse (by simp [h])

/-- One run of `download_pin`: the URLs requested (in order), the files
    written as `(path, body)` pairs, and the returned value. -/
structure Trace where
  requests : List String
  written : List (String × List Nat)
  result : Except Err Bool
deriving DecidableEq

/-- The probing loop of `download_pin` over a list of candidate extensions.
    `net` answers each GET; `writeOk` tells whether `File::create` +
    `write_all` succeed for a path.  A send error or a non-success status
    falls through to the next candidate; a success status stops the loop:
    a body-read failure raises `transport`, a write failure raises `ioFail`,
    otherwise the body is written and `true` is returned.  An exhausted list
    returns `false`. -/
def probeExts (net : String → NetResponse) (writeOk : String → Bool) (dir base : String) :
    List String → Trace
  | [] => ⟨[], [], .ok false⟩
  | ext :: rest =>
    let url := url_base_with_extension base ext
    match net url with
    | .sendErr =>
      let t := probeExts net writeOk dir base rest
      ⟨url :: t.requests, t.written, t.result⟩
    | .response false _ =>
      let t := probeExts net writeOk dir base rest
      ⟨url :: t.requests, t.written, t.result⟩
    | .response true none => ⟨[url], [], .error .transport⟩
    | .response true (some body) =>
      let fname := dir ++ "/" ++ fileName url
      if writeOk fname then ⟨[url], [(fname, body)], .ok true⟩
      else ⟨[url], [], .error .ioFail⟩

/-- `download_pin`: extract the base URL from the description (returning
    `false` with no requests when there is none), then probe `EXTENSIONS`. -/
def download_pin (net : String → NetResponse) (writeOk : String → Bool)
    (dir pin_description : String) : Trace :=
  match url_base_from_description pin_description with
  | none => ⟨[], [], .ok false⟩
  | some base => probeExts net writeOk dir base EXTENSIONS

/-! ## src/cushion.rs -/

/-- The persisted fields of a `Cushion` (the `client` field carries no state
    relevant to the embedding; paths are modelled as strings). -/
structure Cushion where
  user : String
  board : String
  url : String
  path : String
  latest_download : String
deriving DecidableEq

/-- The `unwrap_or("\u{fffd}")` sentinel substituted for an absent guid in
    the `take_while` predicate of `Cushion::update`. -/
def sentinel : String := "\uFFFD"

/-- `item.guid().map(rss::Guid::value).unwrap_or("\u{fffd}")`. -/
def guidOrSentinel (item : Item) : String := item.guid.getD sentinel

/-- The new-item window of `Cushion::update`:
    `channel.items().iter().take_while(|item| guidOrSentinel item != latest)`. -/
def window (latest : String) (items : List Item) : List Item :=
  items.takeWhile (fun item => guidOrSentinel item != latest)

/-- `Cushion::download`: `item.description().ok_or(MissingDescriptionError)?`
    then `download_pin` on it. -/
def Cushion.download (net : String → NetResponse) (writeOk : String → Bool)
    (c : Cushion) (item : Item) : Except Err Bool :=
  match item.description with
  | none => .error .missingDescription
  | some d => (download_pin net writeOk c.path d).result

/-- Observable outcome of one `Cushion::update` cycle: the returned count,
    the cushion state afterwards, and whether `self.save()` was called
    (the `if downloaded >= 1` branch; the save itself is modelled as
    succeeding). -/
structure UpdateResult where
  downloaded : Nat
  state : Cushion
  saved : Bool
deriving DecidableEq

/-- `Cushion::update`, with the feed fetch+parse outcome passed in as
    `fetched` (the two leading `?`s) and `self.download` abstracted as `dl`
    (`download` reads only the fixed `path` and `client`, never
    `latest_download`, so one function models it throughout the cycle).

    Control flow mirrors the source exactly: the first window item, if any,
    is downloaded with `?` — an `Err` propagates before `latest_download` is
    assigned — then `latest_download` is unconditionally set to the item's
    guid value or `""` (`unwrap_or_default`); each remaining window item is
    awaited in turn and only an `Ok(true)` increments the count
    (`if let Ok(true)`); `save` runs only under `downloaded >= 1`. -/
def Cushion.update (dl : Item → Except Err Bool) (fetched : Except Err (List Item))
    (c : Cushion) : Except Err UpdateResult :=
  match fetched with
  | .error e => .error e
  | .ok items =>
    match window c.latest_download items with
    | [] => .ok ⟨0, c, false⟩
    | boundaryItem :: rest =>
      match dl boundaryItem with
      | .error e => .error e
      | .ok b =>
        let d0 : Nat := if b then 1 else 0
        let c2 : Cushion := { c with latest_download := boundaryItem.guid.getD "" }
        let d := rest.foldl (fun acc item =>
          match dl item with
          | .ok true => acc + 1
          | _ => acc) d0
        if d ≥ 1 then .ok ⟨d, c2, true⟩ else .ok ⟨d, c2, false⟩

/-! ## Helper lemmas and shared concrete instances -/

/-- A board in its initial state (`latest_download` empty). -/
def c0 : Cushion := ⟨"u", "b", "https://www.pinterest.com/u/b.rss", "pins/u/b", ""⟩

/-- A board whose stored marker is `"a"`. -/
def cA : Cushion := ⟨"u", "b", "https://www.pinterest.com/u/b.rss", "pins/u/b", "a"⟩

def itemA : Item := ⟨some "a", some "descA"⟩
def itemB : Item := ⟨some "b", some "descB"⟩
def itemC : Item := ⟨some "c", some "descC"⟩
def itemNoDesc : Item := ⟨some "n", none⟩
def itemNoGuid : Item := ⟨none, some "descN"⟩
def itemEmptyGuid : Item := ⟨some "", some "descE"⟩

/-- A downloader whose every call reports a saved file. -/
def dlOk : Item → Except Err Bool := fun _ => .ok true

/-- A downloader whose every call finds no asset (`Ok(false)`). -/
def dlFalse : Item → Except Err Bool := fun _ => .ok false

/-- A downloader whose every call fails with `MissingDescriptionError`. -/
def dlMissing : Item → Except Err Bool := fun _ => .error .missingDescription

theorem window_subset (latest : String) (items : List Item) :
    window latest items ⊆ items :=
  List.IsPrefix.subset (List.takeWhile_prefix _)

theorem update_empty_window (dl : Item → Except Err Bool) (items : List Item) (c : Cushion)
    (h : window c.latest_download items = []) :
    Cushion.update dl (Except.ok items) c = Except.ok ⟨0, c, false⟩ := by
  simp [Cushion.update, h]

theorem update_boundary_err (dl : Item → Except Err Bool) (items : List Item) (c : Cushion)
    (boundaryItem : Item) (rest : List Item) (e : Err)
    (hw : window c.latest_download items = boundaryItem :: rest)
    (hb : dl boundaryItem = Except.error e) :
    Cushion.update dl (Except.ok items) c = Except.error e := by
  simp [Cushion.update, hw, hb]

/-- The count accumulated over the window remainder. -/
def countRest (dl : Item → Except Err Bool) (rest : List Item) (d0 : Nat) : Nat :=
  rest.foldl (fun acc item =>
    match dl item with
    | .ok true => acc + 1
    | _ => acc) d0

theorem countRest_eq (dl : Item → Except Err Bool) (rest : List Item) (d0 : Nat) :
    countRest dl rest d0 = d0 + rest.countP (fun item => dl item == Except.ok true) := by
  induction rest generalizing d0 with
  | nil => simp [countRest]
  | cons x xs ih =>
    simp only [countRest, List.foldl_cons, List.countP_cons] at *
    cases hx : dl x with
    | error e => simp [hx, ih]
    | ok b =>
      cases b
      · simp [hx, ih]
      · simp [hx, ih]
        omega

theorem update_boundary_ok (dl : Item → Except Err Bool) (items : List Item) (c : Cushion)
    (boundaryItem : Item) (rest : List Item) (b : Bool)
    (hw : window c.latest_download items = boundaryItem :: rest)
    (hb : dl boundaryItem = Except.ok b) :
    Cushion.update dl (Except.ok items) c =
      (if 1 ≤ countRest dl rest (if b then 1 else 0)
       then Except.ok ⟨countRest dl rest (if b then 1 else 0),
              { c with latest_download := boundaryItem.guid.getD "" }, true⟩
       else Except.ok ⟨countRest dl rest (if b then 1 else 0),
              { c with latest_download := boundaryItem.guid.getD "" }, false⟩) := by
  simp [Cushion.update, hw, hb, countRest]

/-! ## Claims -/

/-- C8: for every cycle whose new-item window is empty, `update` returns 0,
    the board record is unchanged bit-for-bit, and no persistence call is
    made. -/
theorem claim8_empty_window_frame (dl : Item → Except Err Bool) (items : List Item)
    (c : Cushion) (h : window c.latest_download items = []) :
    Cushion.update dl (Except.ok items) c = Except.ok ⟨0, c, false⟩ := by
  simp [Cushion.update, h]

theorem claim8_witness :
    Cushion.update dlOk (Except.ok [itemA, itemB]) cA = Except.ok ⟨0, cA, false⟩ :=
  claim8_empty_window_frame dlOk [itemA, itemB] cA (by decide)

/-- C1, counterexample to the claim as stated: when the boundary item's
    download returns an `Err` (here `MissingDescriptionError`), the cycle
    fails with that error and `lastItemID` is not advanced — `update` does
    not return any state at all, let alone one with the boundary's id. -/
theorem claim1_counterexample :
    Cushion.update dlMissing (Except.ok [itemA]) c0
      = Except.error Err.missingDescription := rfl

/-- C1, amended: after the boundary item is processed, `update` advances
    `lastItemID` to the boundary's id (empty string when the id is absent)
    whenever the boundary download returns `Ok` — whether `true` or `false` —
    but a boundary download that returns an `Err` propagates it and leaves
    the marker untouched. -/
theorem claim1_boundary_advance (dl : Item → Except Err Bool) (items : List Item)
    (c : Cushion) (boundaryItem : Item) (rest : List Item)
    (h : window c.latest_download items = boundaryItem :: rest) :
    (∀ b, dl boundaryItem = Except.ok b →
      ∃ r : UpdateResult, Cushion.update dl (Except.ok items) c = Except.ok r ∧
        r.state.latest_download = boundaryItem.guid.getD "") ∧
    (∀ e, dl boundaryItem = Except.error e →
      Cushion.update dl (Except.ok items) c = Except.error e) := by
  constructor
  · intro b hb
    rw [update_boundary_ok dl items c boundaryItem rest b h hb]
    by_cases hc : 1 ≤ countRest dl rest (if b then 1 else 0)
    · rw [if_pos hc]
      exact ⟨_, rfl, rfl⟩
    · rw [if_neg hc]
      exact ⟨_, rfl, rfl⟩
  · intro e he
    exact update_boundary_err dl items c boundaryItem rest e h he

theorem claim1_witness :
    ∃ r : UpdateResult, Cushion.update dlFalse (Except.ok [itemA]) c0 = Except.ok r ∧
      r.state.latest_download = "a" := by
  have h := (claim1_boundary_advance dlFalse [itemA] c0 itemA [] (by decide)).1 false rfl
  simpa [itemA] using h

/-- C2: the code at the failing input.  The boundary download returns
    `Ok(false)` and there is no other window item, so `downloaded = 0`:
    the marker is advanced from `""` to `"q"` in memory, yet the
    `if downloaded >= 1` guard skips `self.save()` (`saved = false`) — the
    marker advancement is left unpersisted, contrary to the claim (and no
    `Drop` impl exists to save it later, despite the struct's doc comment). -/
theorem claim2_marker_advanced_without_persistence :
    Cushion.update dlFalse (Except.ok [⟨some "q", some "descQ"⟩]) c0
      = Except.ok ⟨0, { c0 with latest_download := "q" }, false⟩ := rfl

/-- C3, counterexample to the claim as stated: a cycle that downloads
    nothing successfully (boundary `Ok(false)`, no remainder) still changes
    `lastItemID`. -/
theorem claim3_counterexample :
    Cushion.update dlFalse (Except.ok [itemB]) c0
        = Except.ok ⟨0, { c0 with latest_download := "b" }, false⟩ ∧
      c0.latest_download ≠ "b" := ⟨rfl, by decide⟩

/-- C3, amended invariant: a completed cycle either leaves `lastItemID`
    unchanged, or the window was non-empty, the boundary download returned
    `Ok` (successful or not), and the new marker is the boundary item's id
    (an item present in the fetched feed; empty string when its id is
    absent).  At least one successful download is *not* required. -/
theorem claim3_marker_invariant (dl : Item → Except Err Bool) (items : List Item)
    (c : Cushion) (r : UpdateResult)
    (h : Cushion.update dl (Except.ok items) c = Except.ok r) :
    r.state.latest_download = c.latest_download ∨
      ∃ boundaryItem rest b, window c.latest_download items = boundaryItem :: rest ∧
        boundaryItem ∈ items ∧ dl boundaryItem = Except.ok b ∧
        r.state.latest_download = boundaryItem.guid.getD "" := by
  cases hw : window c.latest_download items with
  | nil =>
    left
    rw [update_empty_window dl items c hw] at h
    injection h with h'
    rw [← h']
  | cons boundaryItem rest =>
    cases hb : dl boundaryItem with
    | error e =>
      rw [update_boundary_err dl items c boundaryItem rest e hw hb] at h
      exact absurd h (by simp)
    | ok b =>
      right
      have hmem : boundaryItem ∈ items := by
        refine window_subset c.latest_download items ?_
        rw [hw]; exact List.mem_cons_self _ _
      refine ⟨boundaryItem, rest, b, rfl, hmem, hb, ?_⟩
      rw [update_boundary_ok dl items c boundaryItem rest b hw hb] at h
      by_cases hc : 1 ≤ countRest dl rest (if b then 1 else 0)
      · rw [if_pos hc] at h
        injection h with h'
        rw [← h']
      · rw [if_neg hc] at h
        injection h with h'
        rw [← h']

theorem claim3_witness :
    ({ c0 with latest_download := "b" } : Cushion).latest_download = c0.latest_download ∨
      ∃ boundaryItem rest b, window c0.latest_download [itemB] = boundaryItem :: rest ∧
        boundaryItem ∈ [itemB] ∧ dlFalse boundaryItem = Except.ok b ∧
        ({ c0 with latest_download := "b" } : Cushion).latest_download
          = boundaryItem.guid.getD "" :=
  claim3_marker_invariant dlFalse [itemB] c0 ⟨0, { c0 with latest_download := "b" }, false⟩ rfl

theorem window_all_new (latest : String) (items : List Item)
    (h : ∀ item ∈ items, guidOrSentinel item ≠ latest) :
    window latest items = items := by
  induction items with
  | nil => rfl
  | cons x xs ih =>
    have hx : (guidOrSentinel x != latest) = true := by
      simp only [bne_iff_ne, ne_eq]
      exact h x (List.mem_cons_self _ _)
    have ihh := ih (fun y hy => h y (List.mem_cons_of_mem _ hy))
    simp only [window, List.takeWhile_cons, hx, if_true]
    simp only [window] at ihh
    rw [ihh]

theorem window_split (latest : String) (pre post : List Item) (x : Item)
    (hx : guidOrSentinel x = latest)
    (hpre : ∀ y ∈ pre, guidOrSentinel y ≠ latest) :
    window latest (pre ++ x :: post) = pre := by
  induction pre with
  | nil =>
    simp [window, List.takeWhile_cons, hx]
  | cons y ys ih =>
    have hy : (guidOrSentinel y != latest) = true := by
      simp only [bne_iff_ne, ne_eq]
      exact hpre y (List.mem_cons_self _ _)
    have ihh := ih (fun z hz => hpre z (List.mem_cons_of_mem _ hz))
    simp only [List.cons_append, window, List.takeWhile_cons, hy, if_true]
    simp only [window] at ihh
    rw [ihh]

/-- C5, counterexample to the claim as stated: an item whose id is the empty
    string matches the empty first-ever marker, so with `lastItemID = ""`
    the window is not the entire feed. -/
theorem claim5_counterexample :
    c0.latest_download = "" ∧ window c0.latest_download [itemEmptyGuid] = [] ∧
      ([] : List Item) ≠ [itemEmptyGuid] := by decide

/-- C5, amended: the window is exactly the prefix of the feed up to (not
    including) the first item whose id — with an absent id replaced by the
    sentinel — equals the stored marker; when `lastItemID` is empty the
    window is the entire feed provided no item carries the empty string as
    its id. -/
theorem claim5_window_characterisation (latest : String) (items pre post : List Item)
    (x : Item) :
    (items = pre ++ x :: post → guidOrSentinel x = latest →
      (∀ y ∈ pre, guidOrSentinel y ≠ latest) → window latest items = pre) ∧
    ((∀ item ∈ items, item.guid ≠ some "") → window "" items = items) := by
  constructor
  · intro hitems hx hpre
    rw [hitems]
    exact window_split latest pre post x hx hpre
  · intro hno
    refine window_all_new "" items (fun item hit => ?_)
    cases hg : item.guid with
    | none =>
      simp only [guidOrSentinel, hg, Option.getD_none]
      decide
    | some s =>
      have hs := hno item hit
      rw [hg] at hs
      simp only [guidOrSentinel, hg, Option.getD_some]
      intro he
      exact hs (by rw [he])

theorem claim5_witness :
    window "b" [itemC, itemB, itemA] = [itemC] :=
  (claim5_window_characterisation "b" [itemC, itemB, itemA] [itemC] [itemA] itemB).1
    rfl (by decide) (by decide)

/-- C4, counterexample to the claim as stated: a boundary item with no
    description raises `MissingDescriptionError` through the `?` operator
    and fails the whole cycle — the error is not swallowed for the boundary
    item. -/
theorem claim4_counterexample :
    Cushion.update (Cushion.download (fun _ => NetResponse.sendErr) (fun _ => true) c0)
        (Except.ok [⟨some "m", none⟩]) c0 = Except.error Err.missingDescription := rfl

/-- C4, amended: an absent description is swallowed at the item level for
    the *remainder* items of the window — such an item counts as
    not-downloaded and the cycle completes, counting exactly the `Ok(true)`
    remainder downloads — but for the *boundary* item the resulting
    `MissingDescriptionError` propagates and fails the cycle. -/
theorem claim4_missing_content (net : String → NetResponse) (writeOk : String → Bool)
    (c : Cushion) (items : List Item) (boundaryItem : Item) (rest : List Item)
    (h : window c.latest_download items = boundaryItem :: rest) :
    (boundaryItem.description = none →
      Cushion.update (Cushion.download net writeOk c) (Except.ok items) c
        = Except.error Err.missingDescription) ∧
    (∀ b, Cushion.download net writeOk c boundaryItem = Except.ok b →
      ∃ r : UpdateResult,
        Cushion.update (Cushion.download net writeOk c) (Except.ok items) c
          = Except.ok r ∧
        r.downloaded = (if b then 1 else 0)
          + rest.countP
              (fun item => Cushion.download net writeOk c item == Except.ok true)) := by
  constructor
  · intro hd
    refine update_boundary_err _ items c boundaryItem rest _ h ?_
    simp [Cushion.download, hd]
  · intro b hb
    rw [update_boundary_ok _ items c boundaryItem rest b h hb]
    by_cases hc : 1 ≤ countRest (Cushion.download net writeOk c) rest (if b then 1 else 0)
    · rw [if_pos hc]
      exact ⟨_, rfl, countRest_eq _ _ _⟩
    · rw [if_neg hc]
      exact ⟨_, rfl, countRest_eq _ _ _⟩

theorem claim4_witness :
    ∃ r : UpdateResult,
      Cushion.update (Cushion.download (fun _ => NetResponse.sendErr) (fun _ => true) c0)
          (Except.ok [itemA, itemNoDesc]) c0 = Except.ok r ∧ r.downloaded = 0 := by
  obtain ⟨r, hr, hd⟩ := (claim4_missing_content (fun _ => NetResponse.sendErr)
      (fun _ => true) c0 [itemA, itemNoDesc] itemA [itemNoDesc] (by decide)).2 false rfl
  exact ⟨r, hr, by rw [hd]; decide⟩

/-- C9, counterexample to the claim as stated: the sentinel substituted for
    an absent id is the replacement character U+FFFD, and it *does* match a
    stored marker equal to that string — with `lastItemID = "�"` an
    id-less item terminates the window. -/
theorem claim9_counterexample :
    guidOrSentinel itemNoGuid = sentinel ∧ window sentinel [itemNoGuid] = [] ∧
      ([] : List Item) ≠ [itemNoGuid] := by decide

/-- C9, amended: an item lacking an id is compared through the sentinel
    U+FFFD, which differs from every stored marker except the string
    `"�"` itself; and when such an item is the boundary item whose
    download returns `Ok`, the stored marker becomes the empty string. -/
theorem claim9_missing_id (latest : String) (item : Item)
    (dl : Item → Except Err Bool) (items : List Item) (c : Cushion)
    (boundaryItem : Item) (rest : List Item) (b : Bool) :
    (item.guid = none → latest ≠ sentinel → guidOrSentinel item ≠ latest) ∧
    (window c.latest_download items = boundaryItem :: rest → boundaryItem.guid = none →
      dl boundaryItem = Except.ok b →
      ∃ r : UpdateResult, Cushion.update dl (Except.ok items) c = Except.ok r ∧
        r.state.latest_download = "") := by
  constructor
  · intro hg hne
    simp only [guidOrSentinel, hg, Option.getD_none]
    exact Ne.symm hne
  · intro hw hg hb
    rw [update_boundary_ok dl items c boundaryItem rest b hw hb]
    by_cases hc : 1 ≤ countRest dl rest (if b then 1 else 0)
    · rw [if_pos hc]
      exact ⟨_, rfl, by simp [hg]⟩
    · rw [if_neg hc]
      exact ⟨_, rfl, by simp [hg]⟩

theorem claim9_witness :
    ∃ r : UpdateResult, Cushion.update dlOk (Except.ok [itemNoGuid]) c0 = Except.ok r ∧
      r.state.latest_download = "" :=
  (claim9_missing_id "z" itemNoGuid dlOk [itemNoGuid] c0 itemNoGuid [] true).2
    (by decide) rfl rfl

/-- The loop-continuation condition of `download_pin`: a send error
    (`if let Ok(resp)` falls through) or a non-success status (`continue`). -/
def isContinue : NetResponse → Bool
  | .sendErr => true
  | .response success _ => !success

theorem probe_all_continue (net : String → NetResponse) (writeOk : String → Bool)
    (dir base : String) (l : List String)
    (h : ∀ e ∈ l, isContinue (net (url_base_with_extension base e)) = true) :
    probeExts net writeOk dir base l
      = ⟨l.map (fun e => url_base_with_extension base e), [], Except.ok false⟩ := by
  induction l with
  | nil => rfl
  | cons x xs ih =>
    have hx := h x (List.mem_cons_self _ _)
    have ihh := ih (fun e he => h e (List.mem_cons_of_mem _ he))
    cases hnet : net (url_base_with_extension base x) with
    | sendErr => simp [probeExts, hnet, ihh]
    | response s body =>
      cases s with
      | true => rw [hnet] at hx; simp [isContinue] at hx
      | false => simp [probeExts, hnet, ihh]

theorem probe_first_success (net : String → NetResponse) (writeOk : String → Bool)
    (dir base : String) (pre : List String) (ext : String) (post : List String)
    (body : List Nat)
    (hpre : ∀ e ∈ pre, isContinue (net (url_base_with_extension base e)) = true)
    (hext : net (url_base_with_extension base ext) = NetResponse.response true (some body))
    (hw : writeOk (dir ++ "/" ++ fileName (url_base_with_extension base ext)) = true) :
    probeExts net writeOk dir base (pre ++ ext :: post)
      = ⟨pre.map (fun e => url_base_with_extension base e)
            ++ [url_base_with_extension base ext],
         [(dir ++ "/" ++ fileName (url_base_with_extension base ext), body)],
         Except.ok true⟩ := by
  induction pre with
  | nil => simp [probeExts, hext, hw]
  | cons x xs ih =>
    have hx := hpre x (List.mem_cons_self _ _)
    have ihh := ih (fun e he => hpre e (List.mem_cons_of_mem _ he))
    cases hnet : net (url_base_with_extension base x) with
    | sendErr => simp [probeExts, hnet, ihh]
    | response s b2 =>
      cases s with
      | true => rw [hnet] at hx; simp [isContinue] at hx
      | false => simp [probeExts, hnet, ihh]

/-- C6: `download_pin` probes the fixed ordered extension list
    jpg, jpeg, png, webm, tiff, gif, jfif, jiff.  A send failure or a
    non-success status for a candidate continues to the next one; exhausting
    all candidates returns `false`, not an error; the first success-status
    response stops the loop — no request is issued for any later extension —
    and (the body and file write going through) the body is written to the
    target directory under the final path segment of the probed URL and
    `true` is returned. -/
theorem claim6_probe_behaviour (net : String → NetResponse) (writeOk : String → Bool)
    (dir base : String) :
    EXTENSIONS = ["jpg", "jpeg", "png", "webm", "tiff", "gif", "jfif", "jiff"] ∧
    (∀ descr, url_base_from_description descr = some base →
      download_pin net writeOk dir descr = probeExts net writeOk dir base EXTENSIONS) ∧
    ((∀ e ∈ EXTENSIONS, isContinue (net (url_base_with_extension base e)) = true) →
      probeExts net writeOk dir base EXTENSIONS
        = ⟨EXTENSIONS.map (fun e => url_base_with_extension base e), [],
           Except.ok false⟩) ∧
    (∀ pre ext post body, EXTENSIONS = pre ++ ext :: post →
      (∀ e ∈ pre, isContinue (net (url_base_with_extension base e)) = true) →
      net (url_base_with_extension base ext) = NetResponse.response true (some body) →
      writeOk (dir ++ "/" ++ fileName (url_base_with_extension base ext)) = true →
      probeExts net writeOk dir base EXTENSIONS
        = ⟨pre.map (fun e => url_base_with_extension base e)
              ++ [url_base_with_extension base ext],
           [(dir ++ "/" ++ fileName (url_base_with_extension base ext), body)],
           Except.ok true⟩) := by
  refine ⟨rfl, ?_, ?_, ?_⟩
  · intro descr hd
    simp [download_pin, hd]
  · intro h
    exact probe_all_continue net writeOk dir base EXTENSIONS h
  · intro pre ext post body hsplit hpre hext hw
    rw [hsplit]
    exact probe_first_success net writeOk dir base pre ext post body hpre hext hw

/-- A concrete network oracle for the C6 witness: the jpg probe answers 404,
    the jpeg probe succeeds with body `[1, 2]`, everything else errs. -/
def net0 : String → NetResponse := fun url =>
  if url = "https://h/x.jpg" then NetResponse.response false none
  else if url = "https://h/x.jpeg" then NetResponse.response true (some [1, 2])
  else NetResponse.sendErr

theorem claim6_witness :
    probeExts net0 (fun _ => true) "d" "https://h/x." EXTENSIONS
      = ⟨["https://h/x.jpg", "https://h/x.jpeg"], [("d/x.jpeg", [1, 2])],
         Except.ok true⟩ := by
  have h := (claim6_probe_behaviour net0 (fun _ => true) "d" "https://h/x.").2.2.2
    ["jpg"] "jpeg" ["png", "webm", "tiff", "gif", "jfif", "jiff"] [1, 2]
    rfl (by decide) (by decide) rfl
  exact h.trans (by decide)

/-- C7: on the concrete content of the spec scenario,
    `url_base_from_description` rewrites the embedded pinimg reference to the
    canonical originals base with the extension stripped and the trailing dot
    kept; on content with no matching reference it returns `none` (not an
    error); and a newline elsewhere in the content does not prevent the
    match. -/
theorem claim7_extract_asset_base :
    url_base_from_description
        "<img src=\"https://i.pinimg.com/236x/e1/5f/eb/e15feb.jpg\">"
      = some "https://i.pinimg.com/originals/e1/5f/eb/e15feb." ∧
    url_base_from_description
        "<a href=\"https://www.pinterest.de/pin/534872893249331052/\"></a>" = none ∧
    url_base_from_description
        "<a href=\"https://www.pinterest.de/pin/1/\">\n  <img src=\"https://i.pinimg.com/236x/e1/5f/eb/e15feb.jpg\"></a>"
      = some "https://i.pinimg.com/originals/e1/5f/eb/e15feb." :=
  ⟨rfl, rfl, rfl⟩

end PinCushion
